import Mathlib

/-!
Verification development for the Job finalization methods of the gue job
queue (src/job.go together with the table shapes of src/schema.sql).

Shallow embedding conventions:
* Timestamps and durations are modelled as `Int` (nanoseconds since an
  arbitrary epoch); `time.Now().UTC()` becomes an explicit `now : Int`
  parameter, and `time.Time.Add` becomes integer addition.
* The Go field `ErrorCount int32` is an `Int`, and the increment performed
  by `Job.Error` wraps through `wrap32`, matching two-complement int32
  arithmetic in Go.
* `sql.NullTime` becomes `NullTime` (a time plus a validity flag) and
  `pgtype.Text` becomes `Option String` (NULL is `none`).
* The database transaction and connection pool references are modelled by
  the booleans `tx` and `pool` (present or nil); the statements a method
  runs on the transaction are recorded as a trace of `TxOp` values in the
  order they are issued.  `Tx.Exec` and `Tx.Commit` may fail: each method
  receives the outcome of its statement as an `Option Err` parameter
  (`none` meaning success), exactly one outcome per statement the Go code
  issues.
* The per-job mutex (`j.mu.Lock(); defer j.mu.Unlock()`) serializes the
  methods; the embedding is that serialized, sequential semantics.
* Each method returns a `StepResult`: the updated in-memory job, the trace
  of transaction operations it issued, and the returned Go error
  (`none` is a nil error).
-/

namespace Gue

/-- Two-complement wraparound of an unbounded integer into the int32 range,
matching Go int32 addition overflow semantics. -/
def wrap32 (x : Int) : Int :=
  (x + 2147483648) % 4294967296 - 2147483648

/-- Model of `sql.NullTime`: a timestamp plus a validity flag; an invalid
value represents SQL NULL (its `time` is the Go zero time, modelled as any
integer, by convention 0 when scanned from NULL). -/
structure NullTime where
  time : Int
  valid : Bool
  deriving DecidableEq

/-- The column value a `NullTime` stands for: NULL when invalid. -/
def NullTime.toColumn (t : NullTime) : Option Int :=
  if t.valid then some t.time else none

/-- Model of the `Job` struct of src/job.go.  The `mu sync.Mutex` field is
elided (see the module docstring); `pool` and `tx` record only whether the
corresponding reference is non-nil; `backoff` is the backoff function
captured at lock time, retries to duration. -/
structure Job where
  ID : Int
  Queue : String
  Priority : Int
  RunAt : Int
  «Type» : String
  Args : List Nat
  ErrorCount : Int
  LastError : Option String
  CreatedAt : Int
  UpdatedAt : NullTime
  FinishedAt : NullTime
  finished : Bool
  deleted : Bool
  pool : Bool
  tx : Bool
  backoff : Int → Int

/-- The SQL statements src/job.go executes on the job transaction, with the
argument values the Go code passes.  `insertFinished` records the eleven
values bound to the INSERT into gue_jobs_finished; note the Go code passes
`j.UpdatedAt.Time.UTC()` and `j.FinishedAt.Time.UTC()`, i.e. bare
timestamps, never NULL. -/
inductive SQLStmt where
  | deleteJob (jobID : Int)
  | setFinishedAt (finishedAt : Int) (jobID : Int)
  | insertFinished (jobID : Int) (jobType : String) (queue : String)
      (args : List Nat) (priority : Int) (runAt : Int) (errorCount : Int)
      (lastError : Option String) (createdAt : Int) (updatedAt : Int)
      (finishedAt : Int)
  | updateErrored (errorCount : Int) (runAt : Int) (lastError : String)
      (updatedAt : Int) (jobID : Int)
  deriving DecidableEq

/-- An operation issued on the job transaction. -/
inductive TxOp where
  | exec (stmt : SQLStmt)
  | commit
  | rollback
  deriving DecidableEq

/-- Go errors as the finalization methods return them: `db` is an error
coming back from `Exec` or `Commit`; `doneFailed original doneErr` is the
error built by the deferred block of `Job.Error` via
`fmt.Errorf("failed to mark job as done (original error: %v): %w", err, doneErr)`,
wrapping the commit failure while retaining the original error (possibly
nil). -/
inductive Err where
  | db (msg : String)
  | doneFailed (original : Option Err) (doneErr : Err)

/-- Result of one finalization method: the updated in-memory job, the trace
of operations issued on the transaction, and the returned error. -/
structure StepResult where
  job : Job
  ops : List TxOp
  ret : Option Err

/-- Embedding of `Job.Delete` (src/job.go lines 83 to 98): return nil when
already deleted, otherwise DELETE the row by id; on Exec failure return the
error without touching the flag, on success set `deleted`. -/
def Job.Delete (j : Job) (execErr : Option Err) : StepResult :=
  if j.deleted then
    ⟨j, [], none⟩
  else
    let op := TxOp.exec (SQLStmt.deleteJob j.ID)
    match execErr with
    | some e => ⟨j, [op], some e⟩
    | none => ⟨{ j with deleted := true }, [op], none⟩

/-- Embedding of `Job.Finished` (src/job.go lines 104 to 124): return nil
when already finished, otherwise UPDATE finished_at to now; on success
populate the in-memory `FinishedAt` with the same timestamp and set
`finished`. -/
def Job.Finished (j : Job) (now : Int) (execErr : Option Err) : StepResult :=
  if j.finished then
    ⟨j, [], none⟩
  else
    let op := TxOp.exec (SQLStmt.setFinishedAt now j.ID)
    match execErr with
    | some e => ⟨j, [op], some e⟩
    | none =>
      ⟨{ j with FinishedAt := ⟨now, true⟩, finished := true }, [op], none⟩

/-- Embedding of `Job.Migrate` (src/job.go lines 127 to 144): return nil
when the job is not marked finished, otherwise INSERT into
gue_jobs_finished the eleven values the Go code passes; the in-memory job
is not modified. -/
def Job.Migrate (j : Job) (execErr : Option Err) : StepResult :=
  if !j.finished then
    ⟨j, [], none⟩
  else
    let op := TxOp.exec (SQLStmt.insertFinished j.ID j.«Type» j.Queue j.Args
      j.Priority j.RunAt j.ErrorCount j.LastError j.CreatedAt
      j.UpdatedAt.time j.FinishedAt.time)
    match execErr with
    | some e => ⟨j, [op], some e⟩
    | none => ⟨j, [op], none⟩

/-- Embedding of `Job.Done` (src/job.go lines 148 to 165): return nil when
the transaction or pool reference is already nil; otherwise COMMIT, and on
success nil out both references. -/
def Job.Done (j : Job) (commitErr : Option Err) : StepResult :=
  if j.tx = false ∨ j.pool = false then
    ⟨j, [], none⟩
  else
    match commitErr with
    | some e => ⟨j, [TxOp.commit], some e⟩
    | none => ⟨{ j with pool := false, tx := false }, [TxOp.commit], none⟩

/-- The error combination performed by the deferred block of `Job.Error`:
when the deferred `Done` returns an error, wrap it together with the
original error; otherwise keep the original error. -/
def chainDone (err : Option Err) (doneRet : Option Err) : Option Err :=
  match doneRet with
  | none => err
  | some doneErr => some (Err.doneFailed err doneErr)

/-- Embedding of `Job.Error` (src/job.go lines 175 to 196): compute
`errorCount := j.ErrorCount + 1` in int32 arithmetic, run the UPDATE
setting error_count, run_at = now + backoff(errorCount), last_error and
updated_at on the row, then (deferred, always) run `Done` and chain a
`Done` failure into the returned error.  The UPDATE does not modify the
in-memory job, so the resulting job is the one `Done` produces. -/
def Job.Error (j : Job) (msg : String) (now : Int)
    (execErr commitErr : Option Err) : StepResult :=
  let errorCount := wrap32 (j.ErrorCount + 1)
  let newRunAt := now + j.backoff errorCount
  let op := TxOp.exec (SQLStmt.updateErrored errorCount newRunAt msg now j.ID)
  let d := Job.Done j commitErr
  ⟨d.job, op :: d.ops, chainDone execErr d.ret⟩

/-- The error_count value bound by the first statement of a trace, when
that statement is the UPDATE of `Job.Error`. -/
def StepResult.writtenErrorCount (r : StepResult) : Option Int :=
  match r.ops with
  | TxOp.exec (SQLStmt.updateErrored ec _ _ _ _) :: _ => some ec
  | _ => none

/-- The run_at value bound by the first statement of a trace, when that
statement is the UPDATE of `Job.Error`. -/
def StepResult.writtenRunAt (r : StepResult) : Option Int :=
  match r.ops with
  | TxOp.exec (SQLStmt.updateErrored _ ra _ _ _) :: _ => some ra
  | _ => none

/-- A row of the gue_jobs_finished archive table as a tuple of column
values; `updated_at` and `finished_at` are `Option Int` so that NULL is
representable (src/schema.sql declares updated_at of gue_jobs_finished
nullable). -/
structure FinishedRow where
  job_id : Int
  job_type : String
  queue : String
  args : List Nat
  priority : Int
  run_at : Int
  error_count : Int
  last_error : Option String
  created_at : Int
  updated_at : Option Int
  finished_at : Option Int
  deriving DecidableEq

/-- The archive row an `insertFinished` statement stores: every bound
timestamp is a concrete value, so updated_at and finished_at are non-NULL. -/
def SQLStmt.insertedFinishedRow : SQLStmt → Option FinishedRow
  | .insertFinished id ty q a p r ec le ca ua fa =>
      some ⟨id, ty, q, a, p, r, ec, le, ca, some ua, some fa⟩
  | _ => none

/-- The archive row stored by the first statement of a trace, when that
statement is the INSERT of `Job.Migrate`. -/
def StepResult.writtenFinishedRow (r : StepResult) : Option FinishedRow :=
  match r.ops with
  | TxOp.exec s :: _ => s.insertedFinishedRow
  | _ => none

/-- Modelled from the spec: the faithful copy of all original columns of a
job into the archive table, as stated by the round-trip law "Migrate copies
all columns faithfully to the archive table" — each column of the archive
row carries exactly the value of the corresponding column of the job,
nullable columns included. -/
def specArchiveRow (j : Job) : FinishedRow :=
  ⟨j.ID, j.«Type», j.Queue, j.Args, j.Priority, j.RunAt, j.ErrorCount,
   j.LastError, j.CreatedAt, j.UpdatedAt.toColumn, j.FinishedAt.toColumn⟩

theorem wrap32_eq_self (x : Int) (hlo : -2147483648 ≤ x)
    (hhi : x < 2147483648) : wrap32 x = x := by
  unfold wrap32
  omega

/-- A concrete locked job used to instantiate the theorems: transaction and
pool present, two previous failed attempts, constant-slope backoff. -/
def sampleJob : Job :=
  { ID := 7, Queue := "q", Priority := -3, RunAt := 50, «Type» := "email",
    Args := [123, 125], ErrorCount := 2, LastError := some "prev",
    CreatedAt := 10, UpdatedAt := ⟨20, true⟩, FinishedAt := ⟨0, false⟩,
    finished := false, deleted := false, pool := true, tx := true,
    backoff := fun r => 30 * r }

/-- A locked job whose stored error count sits at the int32 maximum, so the
increment performed by `Job.Error` wraps. -/
def jobAtMaxErrorCount : Job :=
  { sampleJob with ErrorCount := 2147483647, backoff := fun _ => 0 }

/-- A locked job at the int32 maximum error count whose backoff function is
the identity, exposing which retry number reaches the backoff function. -/
def jobWrapBackoff : Job :=
  { sampleJob with ID := 8, ErrorCount := 2147483647, backoff := fun r => r }

/-- A locked job marked finished with non-NULL updated_at and finished_at,
obtained from the sample job as a successful Finished call leaves it. -/
def sampleJobFinished : Job :=
  { sampleJob with finished := true, FinishedAt := ⟨70, true⟩ }

/-- A locked job marked finished whose row had NULL updated_at, so its
in-memory `UpdatedAt` is invalid with the zero time. -/
def jobNullUpdatedAt : Job :=
  { sampleJob with
      ID := 9, finished := true, UpdatedAt := ⟨0, false⟩, FinishedAt := ⟨99, true⟩ }

/-- Claim C1 (amended for int32 overflow): for a locked job whose stored
error count n satisfies n + 1 < 2^31 (no int32 wraparound), Error runs the
UPDATE binding error_count to n + 1, run_at to now + backoff(n+1),
last_error to msg and updated_at to now, then always performs the deferred
Done, and chains a Done failure into the returned error while preserving
the original error. -/
theorem error_updates_row_and_always_done (j : Job) (msg : String)
    (now : Int) (execErr commitErr : Option Err)
    (hlo : -2147483648 ≤ j.ErrorCount)
    (hhi : j.ErrorCount + 1 < 2147483648) :
    (Job.Error j msg now execErr commitErr =
      ⟨(Job.Done j commitErr).job,
       TxOp.exec (SQLStmt.updateErrored (j.ErrorCount + 1)
           (now + j.backoff (j.ErrorCount + 1)) msg now j.ID)
         :: (Job.Done j commitErr).ops,
       chainDone execErr (Job.Done j commitErr).ret⟩)
    ∧ (∀ de : Err, (Job.Done j commitErr).ret = some de →
        (Job.Error j msg now execErr commitErr).ret =
          some (Err.doneFailed execErr de)) := by
  constructor
  · simp only [Job.Error]
    rw [wrap32_eq_self (j.ErrorCount + 1) (by omega) hhi]
  · intro de hde
    simp only [Job.Error, chainDone, hde]

/-- Witness for C1 at a concrete job with a failing Exec and a failing
Commit, showing the deferred Done chained into the returned error. -/
theorem error_updates_row_and_always_done_witness :
    (Job.Error sampleJob "boom" 100 (some (Err.db "x")) (some (Err.db "c")) =
      ⟨(Job.Done sampleJob (some (Err.db "c"))).job,
       TxOp.exec (SQLStmt.updateErrored 3 190 "boom" 100 7)
         :: (Job.Done sampleJob (some (Err.db "c"))).ops,
       chainDone (some (Err.db "x"))
         (Job.Done sampleJob (some (Err.db "c"))).ret⟩)
    ∧ (Job.Error sampleJob "boom" 100 (some (Err.db "x"))
        (some (Err.db "c"))).ret =
        some (Err.doneFailed (some (Err.db "x")) (Err.db "c")) := by
  obtain ⟨h1, h2⟩ := error_updates_row_and_always_done sampleJob "boom" 100
    (some (Err.db "x")) (some (Err.db "c")) (by decide) (by decide)
  exact ⟨h1, h2 (Err.db "c") rfl⟩

/-- Counterexample to C1 as stated: at the int32 maximum stored error count
the UPDATE binds error_count to the wrapped value -2147483648, not to
n + 1. -/
theorem error_errorCount_overflow_cx :
    (Job.Error jobAtMaxErrorCount "boom" 0 none none).writtenErrorCount =
      some (-2147483648)
    ∧ (Job.Error jobAtMaxErrorCount "boom" 0 none none).writtenErrorCount ≠
      some (jobAtMaxErrorCount.ErrorCount + 1) := by
  decide

/-- Claim C2 (amended for int32 overflow): when a locked job with stored
error count n, n + 1 < 2^31, fails at time now, the run_at value written by
Error equals now + backoff(n+1); the next dispatch time therefore cannot
precede it. -/
theorem error_writes_backoff_run_at (j : Job) (msg : String) (now : Int)
    (execErr commitErr : Option Err)
    (hlo : -2147483648 ≤ j.ErrorCount)
    (hhi : j.ErrorCount + 1 < 2147483648) :
    (Job.Error j msg now execErr commitErr).writtenRunAt =
      some (now + j.backoff (j.ErrorCount + 1)) := by
  simp only [Job.Error, StepResult.writtenRunAt]
  rw [wrap32_eq_self (j.ErrorCount + 1) (by omega) hhi]

/-- Witness for C2 at a concrete job: two previous failures, slope-30
backoff, failure at time 100, so run_at is written as 100 + 30 * 3. -/
theorem error_writes_backoff_run_at_witness :
    (Job.Error sampleJob "boom" 100 none none).writtenRunAt = some 190 := by
  have h := error_writes_backoff_run_at sampleJob "boom" 100 none none
    (by decide) (by decide)
  simpa [sampleJob] using h

/-- Counterexample to C2 as stated: at the int32 maximum stored error count
the backoff function receives the wrapped retry number -2147483648, and the
written run_at (here -2147483648 with identity backoff and failure time 0)
is strictly below now + backoff(n+1). -/
theorem error_run_at_overflow_cx :
    (Job.Error jobWrapBackoff "boom" 0 none none).writtenRunAt =
      some (-2147483648)
    ∧ (Job.Error jobWrapBackoff "boom" 0 none none).writtenRunAt ≠
      some (0 + jobWrapBackoff.backoff (jobWrapBackoff.ErrorCount + 1))
    ∧ (-2147483648 : Int) <
        0 + jobWrapBackoff.backoff (jobWrapBackoff.ErrorCount + 1) := by
  decide

/-- Claim C3: Delete, Finished and Migrate issue neither COMMIT nor
ROLLBACK (the transaction stays open for the subsequent Done); Error on a
locked job does commit; no method ever rolls back; and every commit Error
issues is one issued by its deferred Done. -/
theorem finalize_commit_discipline (j : Job) (msg : String) (now : Int)
    (e c : Option Err) :
    (TxOp.commit ∉ (Job.Delete j e).ops ∧ TxOp.rollback ∉ (Job.Delete j e).ops)
    ∧ (TxOp.commit ∉ (Job.Finished j now e).ops
        ∧ TxOp.rollback ∉ (Job.Finished j now e).ops)
    ∧ (TxOp.commit ∉ (Job.Migrate j e).ops
        ∧ TxOp.rollback ∉ (Job.Migrate j e).ops)
    ∧ TxOp.rollback ∉ (Job.Done j c).ops
    ∧ TxOp.rollback ∉ (Job.Error j msg now e c).ops
    ∧ (j.tx = true → j.pool = true →
        TxOp.commit ∈ (Job.Error j msg now e c).ops)
    ∧ (TxOp.commit ∈ (Job.Error j msg now e c).ops ↔
        TxOp.commit ∈ (Job.Done j c).ops) := by
  unfold Job.Delete Job.Finished Job.Migrate Job.Error Job.Done
  cases hd : j.deleted <;> cases hf : j.finished <;> cases htx : j.tx <;>
    cases hp : j.pool <;> cases e <;> cases c <;> simp [hd, hf, htx, hp]

/-- Witness for C3 at a concrete locked job: its Error run commits while
its Delete, Finished and Migrate traces carry no commit and no rollback. -/
theorem finalize_commit_discipline_witness :
    (TxOp.commit ∉ (Job.Delete sampleJob none).ops
      ∧ TxOp.rollback ∉ (Job.Delete sampleJob none).ops)
    ∧ (TxOp.commit ∉ (Job.Finished sampleJob 60 none).ops
      ∧ TxOp.rollback ∉ (Job.Finished sampleJob 60 none).ops)
    ∧ (TxOp.commit ∉ (Job.Migrate sampleJob none).ops
      ∧ TxOp.rollback ∉ (Job.Migrate sampleJob none).ops)
    ∧ TxOp.rollback ∉ (Job.Done sampleJob none).ops
    ∧ TxOp.rollback ∉ (Job.Error sampleJob "m" 60 none none).ops
    ∧ TxOp.commit ∈ (Job.Error sampleJob "m" 60 none none).ops
    ∧ (TxOp.commit ∈ (Job.Error sampleJob "m" 60 none none).ops ↔
        TxOp.commit ∈ (Job.Done sampleJob none).ops) := by
  obtain ⟨h1, h2, h3, h4, h5, h6, h7⟩ :=
    finalize_commit_discipline sampleJob "m" 60 none none
  exact ⟨h1, h2, h3, h4, h5, h6 rfl rfl, h7⟩

/-- Claim C4: on a locked job a first successful Done issues exactly one
COMMIT, nils out the transaction and pool references and returns nil, and
any later Done on the resulting job issues nothing and returns nil. -/
theorem done_commits_at_most_once (j : Job) (htx : j.tx = true)
    (hp : j.pool = true) :
    (Job.Done j none).ops = [TxOp.commit]
    ∧ (Job.Done j none).job = { j with pool := false, tx := false }
    ∧ (Job.Done j none).ret = none
    ∧ (∀ c : Option Err,
        Job.Done (Job.Done j none).job c = ⟨(Job.Done j none).job, [], none⟩) := by
  refine ⟨?_, ?_, ?_, ?_⟩ <;> simp [Job.Done, htx, hp]

/-- Witness for C4 at a concrete locked job, with the second Done attempted
under a failing commit outcome and still returning nil with no trace. -/
theorem done_commits_at_most_once_witness :
    (Job.Done sampleJob none).ops = [TxOp.commit]
    ∧ (Job.Done sampleJob none).job =
        { sampleJob with pool := false, tx := false }
    ∧ (Job.Done sampleJob none).ret = none
    ∧ Job.Done (Job.Done sampleJob none).job (some (Err.db "again")) =
        ⟨(Job.Done sampleJob none).job, [], none⟩ := by
  obtain ⟨h1, h2, h3, h4⟩ := done_commits_at_most_once sampleJob rfl rfl
  exact ⟨h1, h2, h3, h4 (some (Err.db "again"))⟩

/-- Claim C5 (amended): for a locked job marked finished whose in-memory
updated_at and finished_at carry non-NULL values, Migrate issues exactly
one INSERT into gue_jobs_finished whose stored row is the faithful copy of
all original columns, leaves the in-memory job unchanged and returns the
Exec outcome; for a job not marked finished, Migrate issues nothing and
returns nil.  (Without the non-NULL condition on updated_at the copy is
not faithful: see the counterexample.) -/
theorem migrate_archives_finished_job (j : Job) (e : Option Err) :
    (j.finished = true → j.UpdatedAt.valid = true → j.FinishedAt.valid = true →
      ((Job.Migrate j e).ops =
          [TxOp.exec (SQLStmt.insertFinished j.ID j.«Type» j.Queue j.Args
            j.Priority j.RunAt j.ErrorCount j.LastError j.CreatedAt
            j.UpdatedAt.time j.FinishedAt.time)]
        ∧ (Job.Migrate j e).writtenFinishedRow = some (specArchiveRow j)
        ∧ (Job.Migrate j e).job = j
        ∧ (Job.Migrate j e).ret = e))
    ∧ (j.finished = false → Job.Migrate j e = ⟨j, [], none⟩) := by
  constructor
  · intro hfin hupd hfa
    refine ⟨?_, ?_, ?_, ?_⟩ <;>
      cases e <;>
        simp [Job.Migrate, StepResult.writtenFinishedRow,
          SQLStmt.insertedFinishedRow, specArchiveRow, NullTime.toColumn,
          hfin, hupd, hfa]
  · intro hfin
    simp [Job.Migrate, hfin]

/-- Witness for C5 at a concrete finished job with non-NULL updated_at and
finished_at, and at a concrete unfinished job. -/
theorem migrate_archives_finished_job_witness :
    (Job.Migrate sampleJobFinished none).writtenFinishedRow =
      some (specArchiveRow sampleJobFinished)
    ∧ Job.Migrate sampleJob none = ⟨sampleJob, [], none⟩ := by
  obtain ⟨h1, _⟩ := migrate_archives_finished_job sampleJobFinished none
  obtain ⟨_, h2⟩ := migrate_archives_finished_job sampleJob none
  exact ⟨(h1 rfl rfl rfl).2.1, h2 rfl⟩

/-- Counterexample to C5 as stated: a finished job whose row has NULL
updated_at (invalid in-memory NullTime) is archived with updated_at equal
to the zero time instead of NULL, so the copy is not faithful. -/
theorem migrate_null_updated_at_cx :
    (Job.Migrate jobNullUpdatedAt none).writtenFinishedRow ≠
      some (specArchiveRow jobNullUpdatedAt)
    ∧ (Job.Migrate jobNullUpdatedAt none).writtenFinishedRow =
      some { specArchiveRow jobNullUpdatedAt with updated_at := some 0 } := by
  decide

/-- Claim C6: on a locked job not yet marked finished, a successful
Finished issues exactly the UPDATE of finished_at to now, sets the
in-memory finished flag and populates FinishedAt with the same timestamp,
returning nil; on an already finished job it issues nothing and returns
nil whatever the Exec outcome would be. -/
theorem finished_sets_finished_at (j : Job) (now : Int) (e : Option Err) :
    (j.finished = false →
      ((Job.Finished j now none).ops =
          [TxOp.exec (SQLStmt.setFinishedAt now j.ID)]
        ∧ (Job.Finished j now none).job =
            { j with FinishedAt := ⟨now, true⟩, finished := true }
        ∧ (Job.Finished j now none).ret = none))
    ∧ (j.finished = true → Job.Finished j now e = ⟨j, [], none⟩) := by
  constructor
  · intro hf
    refine ⟨?_, ?_, ?_⟩ <;> simp [Job.Finished, hf]
  · intro hf
    simp [Job.Finished, hf]

/-- Witness for C6 at a concrete unfinished job and at the finished job it
produces. -/
theorem finished_sets_finished_at_witness :
    ((Job.Finished sampleJob 60 none).ops =
        [TxOp.exec (SQLStmt.setFinishedAt 60 7)]
      ∧ (Job.Finished sampleJob 60 none).job =
          { sampleJob with FinishedAt := ⟨60, true⟩, finished := true }
      ∧ (Job.Finished sampleJob 60 none).ret = none)
    ∧ Job.Finished { sampleJob with finished := true } 61 (some (Err.db "x")) =
        ⟨{ sampleJob with finished := true }, [], none⟩ := by
  obtain ⟨h1, _⟩ := finished_sets_finished_at sampleJob 60 none
  obtain ⟨_, h2⟩ := finished_sets_finished_at
    { sampleJob with finished := true } 61 (some (Err.db "x"))
  exact ⟨h1 rfl, h2 rfl⟩

/-- Claim C7: on a locked job not yet marked deleted, a successful Delete
issues exactly the DELETE of the row with the job id, sets the in-memory
deleted flag and returns nil; on an already deleted job it issues nothing
and returns nil whatever the Exec outcome would be. -/
theorem delete_removes_row (j : Job) (e : Option Err) :
    (j.deleted = false →
      ((Job.Delete j none).ops = [TxOp.exec (SQLStmt.deleteJob j.ID)]
        ∧ (Job.Delete j none).job = { j with deleted := true }
        ∧ (Job.Delete j none).ret = none))
    ∧ (j.deleted = true → Job.Delete j e = ⟨j, [], none⟩) := by
  constructor
  · intro hd
    refine ⟨?_, ?_, ?_⟩ <;> simp [Job.Delete, hd]
  · intro hd
    simp [Job.Delete, hd]

/-- Witness for C7 at a concrete undeleted job and at the deleted job it
produces. -/
theorem delete_removes_row_witness :
    ((Job.Delete sampleJob none).ops = [TxOp.exec (SQLStmt.deleteJob 7)]
      ∧ (Job.Delete sampleJob none).job = { sampleJob with deleted := true }
      ∧ (Job.Delete sampleJob none).ret = none)
    ∧ Job.Delete { sampleJob with deleted := true } (some (Err.db "x")) =
        ⟨{ sampleJob with deleted := true }, [], none⟩ := by
  obtain ⟨h1, _⟩ := delete_removes_row sampleJob none
  obtain ⟨_, h2⟩ := delete_removes_row
    { sampleJob with deleted := true } (some (Err.db "x"))
  exact ⟨h1 rfl, h2 rfl⟩

/-- Claim C9: whatever the outcomes of its UPDATE and of the deferred
commit, Error leaves the in-memory ErrorCount and LastError fields exactly
as they were read at lock time; the increment and the new message reach
only the database row. -/
theorem error_preserves_inmemory_fields (j : Job) (msg : String) (now : Int)
    (e c : Option Err) :
    (Job.Error j msg now e c).job.ErrorCount = j.ErrorCount
    ∧ (Job.Error j msg now e c).job.LastError = j.LastError := by
  unfold Job.Error Job.Done
  cases htx : j.tx <;> cases hp : j.pool <;> cases c <;>
    simp [htx, hp]

/-- Claim C10: a finalization step that fails leaves the in-memory state
unchanged: Delete and Finished on a failing Exec return that error without
setting their flag, and Done on a failing Commit returns that error with
the transaction and pool references still present, so it can be retried. -/
theorem failed_finalization_preserves_state (j : Job) (now : Int) (e : Err) :
    (j.deleted = false →
      ((Job.Delete j (some e)).job = j
        ∧ (Job.Delete j (some e)).ret = some e))
    ∧ (j.finished = false →
      ((Job.Finished j now (some e)).job = j
        ∧ (Job.Finished j now (some e)).ret = some e))
    ∧ (j.tx = true → j.pool = true →
      ((Job.Done j (some e)).job = j
        ∧ (Job.Done j (some e)).ret = some e)) := by
  refine ⟨fun hd => ?_, fun hf => ?_, fun htx hp => ?_⟩
  · simp [Job.Delete, hd]
  · simp [Job.Finished, hf]
  · simp [Job.Done, htx, hp]

/-- Witness for C10 at a concrete locked job with a failing statement. -/
theorem failed_finalization_preserves_state_witness :
    ((Job.Delete sampleJob (some (Err.db "boom"))).job = sampleJob
      ∧ (Job.Delete sampleJob (some (Err.db "boom"))).ret =
          some (Err.db "boom"))
    ∧ ((Job.Finished sampleJob 60 (some (Err.db "boom"))).job = sampleJob
      ∧ (Job.Finished sampleJob 60 (some (Err.db "boom"))).ret =
          some (Err.db "boom"))
    ∧ ((Job.Done sampleJob (some (Err.db "boom"))).job = sampleJob
      ∧ (Job.Done sampleJob (some (Err.db "boom"))).ret =
          some (Err.db "boom")) := by
  obtain ⟨h1, h2, h3⟩ := failed_finalization_preserves_state sampleJob 60
    (Err.db "boom")
  exact ⟨h1 rfl, h2 rfl, h3 rfl rfl⟩

end Gue
